import Mathlib

/-!
Verification development for the Xiaohongshu monitor repository.

The definitions below are a shallow embedding of the parts of the code the
claims are about:

* `xhs_account_manager.py` — account records, the encryption manager, the two
  account-selection strategies (`get_next_account`, `get_account_for_search`),
  and account id generation (`add_account` / `remove_account`);
* `xhs_browser_monitor.py` — timestamp parsing (`_parse_timestamp`), the time
  window filter (`_filter_posts_by_time`), and the terminal behaviour of
  `run`.

Modelling conventions:

* Python `datetime` values are modelled as integer clocks: seconds since the
  epoch in the account manager (it only compares times and adds cooldown
  offsets), milliseconds since the epoch in the monitor (it computes
  millisecond timestamps).  The local timezone is modelled as UTC with no DST.
* Python strings are Lean `String`s; the account `status` field is a free-form
  string exactly as in the code (it stores `Enum.value` strings).
* Fallible operations (`raise`) are modelled with `Except`/`Option`.
* `list.sort` (Python's stable sort) is modelled by `List.mergeSort`, which is
  a stable merge sort.
* Floating-point scores: `get_account_for_search` computes its score with a
  float division by 60; the model uses exact rationals (`ℚ`).  All the
  quantities involved are far below the range where binary floating point and
  exact arithmetic order numbers differently.
-/

namespace XhsMonitor

/-! ## Account records (`xhs_account_manager.py`, `AccountStatus` / `AccountConfig`) -/

/-- Value of `AccountStatus.ACTIVE` (the code stores the enum's string value). -/
def ACTIVE : String := "active"

/-- Value of `AccountStatus.SUSPICIOUS`. -/
def SUSPICIOUS : String := "suspicious"

/-- Value of `AccountStatus.LIMITED`. -/
def LIMITED : String := "limited"

/-- Value of `AccountStatus.BANNED`. -/
def BANNED : String := "banned"

/-- Value of `AccountStatus.UNKNOWN`. -/
def UNKNOWN : String := "unknown"

/-- Shallow embedding of the `AccountConfig` dataclass.  `last_used_at` is an
ISO timestamp string in the code, `""` when the account was never used; it is
modelled as `Option Nat` (seconds since the epoch, `none` for `""`).  ISO
strings of a common format compare lexicographically exactly as the instants
they denote, which is how the model justifies replacing the string field by a
numeric one. -/
structure AccountConfig where
  account_id : String
  username : String
  password_encrypted : String := ""
  phone : String := ""
  status : String := UNKNOWN
  created_at : Nat := 0
  last_used_at : Option Nat := none
  total_searches : Nat := 0
  consecutive_failures : Nat := 0
  last_error : String := ""
  notes : String := ""
deriving DecidableEq, Repr

/-! ## `AccountManager.get_next_account` (lines 337-399) -/

/-- The skip test at the top of the loop in `get_next_account`:
`acc.status in [AccountStatus.BANNED.value, AccountStatus.LIMITED.value]`. -/
def AccountManager.skippedNext (acc : AccountConfig) : Bool :=
  decide (acc.status = BANNED) || decide (acc.status = LIMITED)

/-- The cooldown test: the account has a `last_used_at` and
`now < last_used + timedelta(hours=cooldown_hours)`.  The cooldown length is
carried in seconds (the code's `cooldown_hours * 3600`). -/
def AccountManager.inCooldown (now cooldownSeconds : Nat) (acc : AccountConfig) : Bool :=
  match acc.last_used_at with
  | none => false
  | some t => decide (now < t + cooldownSeconds)

/-- `cooldown_end = last_used + timedelta(hours=cooldown_hours)` for the
cooling list (only reached when `last_used_at` is present). -/
def AccountManager.coolingEnd (cooldownSeconds : Nat) (acc : AccountConfig) : Nat :=
  match acc.last_used_at with
  | none => cooldownSeconds
  | some t => t + cooldownSeconds

/-- The sort key of the available list:
`(x.status != AccountStatus.ACTIVE.value, x.total_searches, x.last_used_at or "")`.
The third component maps `none` (the empty string) below every used timestamp. -/
def AccountManager.availKey (acc : AccountConfig) : Nat × Nat × Nat :=
  ((if acc.status = ACTIVE then 0 else 1), acc.total_searches,
    (match acc.last_used_at with | none => 0 | some t => t + 1))

/-- Lexicographic order on the available-list sort key (Python tuple `<=`). -/
def AccountManager.availLe (a b : AccountConfig) : Bool :=
  let ka := AccountManager.availKey a
  let kb := AccountManager.availKey b
  decide (ka.1 < kb.1) ||
    (decide (ka.1 = kb.1) && (decide (ka.2.1 < kb.2.1) ||
      (decide (ka.2.1 = kb.2.1) && decide (ka.2.2 ≤ kb.2.2))))

/-- Shallow embedding of `AccountManager.get_next_account`.  The loop over
`self.accounts.items()` (a dict in insertion order) becomes a walk over a
`List AccountConfig`; its two accumulators become the two filters below, in
the same order.  `available_accounts.sort(...)` / `[0]` is a stable sort and
head; the cooling fallback sorts `(acc, cooldown_end)` pairs by expiry. -/
def AccountManager.get_next_account (accounts : List AccountConfig) (now : Nat)
    (respect_cooldown : Bool) (cooldownSeconds : Nat) : Option AccountConfig :=
  if accounts = [] then none
  else
    let kept := accounts.filter fun acc => !AccountManager.skippedNext acc
    let available := kept.filter fun acc =>
      !(respect_cooldown && AccountManager.inCooldown now cooldownSeconds acc)
    let cooling := (kept.filter fun acc =>
      respect_cooldown && AccountManager.inCooldown now cooldownSeconds acc).map
        fun acc => (acc, AccountManager.coolingEnd cooldownSeconds acc)
    if available ≠ [] then
      (available.mergeSort AccountManager.availLe).head?
    else if cooling ≠ [] then
      ((cooling.mergeSort fun x y => decide (x.2 ≤ y.2)).head?).map Prod.fst
    else
      none

/-! ## `AccountManager.get_account_for_search` (lines 401-448) -/

/-- The candidate filter of `get_account_for_search`: not `BANNED`, and fewer
than 3 consecutive failures. -/
def AccountManager.searchCandidates (accounts : List AccountConfig) : List AccountConfig :=
  accounts.filter fun acc =>
    !(decide (acc.status = BANNED)) && !(decide (acc.consecutive_failures ≥ 3))

/-- `cooldown_remaining` in minutes: `(cooldown_end - now).total_seconds() / 60`
when the account was used less than an hour ago, else 0.  Exact rational in
the model (float in the code). -/
def AccountManager.cooldownRemaining (now : Nat) (acc : AccountConfig) : ℚ :=
  match acc.last_used_at with
  | none => 0
  | some t => if now < t + 3600 then ((t + 3600 - now : Nat) : ℚ) / 60 else 0

/-- The candidate score (lower is better):
`total_searches*10 + consecutive_failures*50 + cooldown_remaining
 + (100 if status != ACTIVE else 0)`. -/
def AccountManager.searchScore (now : Nat) (acc : AccountConfig) : ℚ :=
  (acc.total_searches : ℚ) * 10 + (acc.consecutive_failures : ℚ) * 50 +
    AccountManager.cooldownRemaining now acc +
    (if acc.status = ACTIVE then 0 else 100)

/-- Shallow embedding of `AccountManager.get_account_for_search`: build the
`(account, score)` candidate pairs in input order, return `none` when there are
none, else sort by score (stable) and return the first account. -/
def AccountManager.get_account_for_search (accounts : List AccountConfig) (now : Nat) :
    Option AccountConfig :=
  if accounts = [] then none
  else
    let candidates := (AccountManager.searchCandidates accounts).map
      fun acc => (acc, AccountManager.searchScore now acc)
    if candidates = [] then none
    else ((candidates.mergeSort fun x y => decide (x.2 ≤ y.2)).head?).map Prod.fst

/-! ## The encryption manager (`EncryptionManager`, lines 82-141)

The code wraps the `cryptography` library: PBKDF2-HMAC-SHA256 key derivation
over a persisted salt, and Fernet authenticated encryption.  Both are external
primitives, modelled symbolically: a derived key is the `(salt, password)`
pair (the KDF is deterministic in both, and the model ignores KDF collisions),
and a Fernet token records the key it was encrypted under together with the
plaintext — decryption succeeds exactly under the encrypting key, which is
Fernet's authentication guarantee.  The base64 wrapping around the token in
`encrypt`/`decrypt` is a bijection and is modelled as the identity. -/

/-- A derived vault key: `EncryptionManager._derive_key` is deterministic in
the persisted salt and the master password. -/
def derive_key (salt password : String) : String × String := (salt, password)

/-- A Fernet token: ciphertext, tagged by the key that produced it. -/
structure FernetToken where
  key : String × String
  msg : String
deriving DecidableEq, Repr

/-- Symbolic `Fernet(key).encrypt`. -/
def fernetEncrypt (key : String × String) (msg : String) : FernetToken := ⟨key, msg⟩

/-- Symbolic `Fernet(key).decrypt`: succeeds exactly under the encrypting
key (authenticated encryption). -/
def fernetDecrypt (key : String × String) (tok : FernetToken) : Option String :=
  if tok.key = key then some tok.msg else none

/-- `EncryptionManager.encrypt`: raises (`ValueError`) when no master password
has been set, else encrypts under the current cipher. -/
def EncryptionManager.encrypt (cipher : Option (String × String)) (plaintext : String) :
    Except String FernetToken :=
  match cipher with
  | none => Except.error "master password not set"
  | some key => Except.ok (fernetEncrypt key plaintext)

/-- `EncryptionManager.decrypt`: raises when no master password has been set;
otherwise a failed Fernet decryption is re-raised as `ValueError` (the
`DecryptionError` of the specification). -/
def EncryptionManager.decrypt (cipher : Option (String × String)) (tok : FernetToken) :
    Except String String :=
  match cipher with
  | none => Except.error "master password not set"
  | some key =>
    match fernetDecrypt key tok with
    | some msg => Except.ok msg
    | none => Except.error "decryption failed"

/-! ## `AccountManager.setup_master_password`, verification branch (lines 191-209) -/

/-- One record of the accounts YAML file as `_load_accounts` reads it: the
password field still holds the ciphertext. -/
structure StoredAccount where
  account_id : String
  password_encrypted : FernetToken
deriving DecidableEq, Repr

/-- Shallow embedding of `AccountManager._load_accounts` (lines 486-502): a
missing or empty file yields no accounts, otherwise the YAML records are
returned as they are.  No ciphertext is decrypted while loading — the cipher
is not consulted at all. -/
def AccountManager.load_accounts (file : Option (List StoredAccount)) :
    Except String (List StoredAccount) :=
  match file with
  | none => Except.ok []
  | some records => Except.ok records

/-- The verify branch of `AccountManager.setup_master_password` (the salt file
exists and `new_password` is false): derive the cipher from the supplied
password, then call `_load_accounts`; report success (return the password) when
loading did not raise, failure (return `""`) otherwise.  The result pairs the
returned string with the cipher left installed in the manager. -/
def AccountManager.setup_master_password_verify (file : Option (List StoredAccount))
    (salt password : String) : String × Option (String × String) :=
  let cipher := some (derive_key salt password)
  match AccountManager.load_accounts file with
  | Except.ok _ => (password, cipher)
  | Except.error _ => ("", cipher)

/-! ## `AccountManager.add_account` / `remove_account` (lines 211-248, 293-306) -/

/-- The accounts registry: `self.accounts` is a Python dict (insertion order,
assignment to an existing key replaces in place), modelled as an association
list with those semantics, together with the `_master_password_set` flag. -/
structure RegistryState where
  accounts : List (String × AccountConfig)
  master_password_set : Bool
deriving DecidableEq, Repr

/-- Python dict assignment `d[k] = v`: replace in place when the key exists,
else append. -/
def dictInsert (k : String) (v : AccountConfig) :
    List (String × AccountConfig) → List (String × AccountConfig)
  | [] => [(k, v)]
  | (k', v') :: rest =>
    if k' = k then (k, v) :: rest else (k', v') :: dictInsert k v rest

/-- Python `f"{n:03d}"`: decimal digits, left-padded with zeros to width 3. -/
def pad3 (n : Nat) : String :=
  let s := toString n
  if s.length < 3 then String.mk (List.replicate (3 - s.length) '0') ++ s else s

/-- The id generated by `add_account`: `f"acc_{len(self.accounts) + 1:03d}"`. -/
def RegistryState.nextId (st : RegistryState) : String :=
  "acc_" ++ pad3 (st.accounts.length + 1)

/-- Shallow embedding of `AccountManager.add_account`: raises when the master
password is not set; otherwise generates the id from the current account
count, builds the record (password stored through the vault; the ciphertext is
irrelevant to id generation and kept abstract here as the plaintext string),
and assigns it into the dict.  Returns the new state and the id. -/
def AccountManager.add_account (st : RegistryState) (username password : String) :
    Except String (RegistryState × String) :=
  if st.master_password_set = false then Except.error "master password not set"
  else
    let account_id := st.nextId
    let account : AccountConfig :=
      { account_id := account_id, username := username, password_encrypted := password }
    Except.ok ({ st with accounts := dictInsert account_id account st.accounts }, account_id)

/-- Shallow embedding of `AccountManager.remove_account`: delete the key when
present and report `true`, else leave the state and report `false`. -/
def AccountManager.remove_account (st : RegistryState) (account_id : String) :
    RegistryState × Bool :=
  if (st.accounts.filter fun kv => decide (kv.1 = account_id)) = [] then (st, false)
  else ({ st with accounts := st.accounts.filter fun kv => !decide (kv.1 = account_id) }, true)

/-- The state after a successful `add_account` (unchanged on error); used to
chain scenario states in theorem statements. -/
def AccountManager.addState (st : RegistryState) (username password : String) : RegistryState :=
  match AccountManager.add_account st username password with
  | Except.ok (st', _) => st'
  | Except.error _ => st

/-- The id returned by a successful `add_account` (`""` on error). -/
def AccountManager.addId (st : RegistryState) (username password : String) : String :=
  match AccountManager.add_account st username password with
  | Except.ok (_, i) => i
  | Except.error _ => ""

/-! ## Terminal behaviour of `XiaohongshuBrowserMonitor.run` (lines 810-981)

The claims about `run` concern only how it terminates and what it flushes, so
the body of the `try` block is abstracted to its control-flow outcome: it
finished normally, a `KeyboardInterrupt` escaped it, or another exception
escaped it, each with the post/comment lists accumulated up to that point.
The three handlers (lines 916-977) then determine the terminal state and what
is passed to `data_storage.save_results`. -/

/-- The terminal states a run can end in. -/
inductive TerminalState where
  | completed
  | stopped
  | error
deriving DecidableEq, Repr

/-- How the body of the `try` block in `run` ended. -/
inductive BodyOutcome where
  | normal
  | interrupted
  | exception
deriving DecidableEq, Repr

/-- What `run` does on termination: the terminal state and the results handed
to persistence (`none` when `save_results` was never called). -/
structure RunTermination (α β : Type) where
  state : TerminalState
  saved : Option (List α × List β)
deriving DecidableEq, Repr

/-- Shallow embedding of the termination logic of `run`: a normal finish saves
the accumulated results and completes; `KeyboardInterrupt` saves them and
returns (the run stops); any other exception saves them only when at least one
post or comment was accumulated (`if all_posts or all_comments:`), then
re-raises. -/
def Monitor.runTermination {α β : Type} (all_posts : List α) (all_comments : List β)
    (outcome : BodyOutcome) : RunTermination α β :=
  match outcome with
  | BodyOutcome.normal =>
    { state := TerminalState.completed, saved := some (all_posts, all_comments) }
  | BodyOutcome.interrupted =>
    { state := TerminalState.stopped, saved := some (all_posts, all_comments) }
  | BodyOutcome.exception =>
    { state := TerminalState.error,
      saved := if all_posts.isEmpty && all_comments.isEmpty then none
               else some (all_posts, all_comments) }

/-! ## Calendar arithmetic

`_parse_timestamp` goes through `datetime`: relative phrases subtract a
`timedelta` from the current clock, absolute dates are built by `strptime` and
turned into an epoch timestamp.  The model carries the clock as integer
milliseconds since the Unix epoch and treats the local timezone as UTC (fixed
offset, no DST).  Civil-date conversion uses the standard proleptic-Gregorian
day-count algorithms. -/

/-- Gregorian leap-year test, as `datetime` uses. -/
def isLeapYear (y : Int) : Bool :=
  (decide (y % 4 = 0) && !decide (y % 100 = 0)) || decide (y % 400 = 0)

/-- Number of days of month `m` (1-12) in year `y`. -/
def daysInMonth (y m : Int) : Int :=
  if m = 2 then (if isLeapYear y then 29 else 28)
  else if m = 4 ∨ m = 6 ∨ m = 9 ∨ m = 11 then 30
  else 31

/-- Days from the Unix epoch (1970-01-01) to civil date `y-m-d`
(proleptic Gregorian; negative before the epoch). -/
def daysFromCivil (y m d : Int) : Int :=
  let y' := if m ≤ 2 then y - 1 else y
  let era := y'.fdiv 400
  let yoe := y' - era * 400
  let mp := (m + 9) % 12
  let doy := (153 * mp + 2) / 5 + d - 1
  let doe := yoe * 365 + yoe / 4 - yoe / 100 + doy
  era * 146097 + doe - 719468

/-- Inverse of `daysFromCivil`: the civil date `(y, m, d)` of a day count. -/
def civilFromDays (z : Int) : Int × Int × Int :=
  let z' := z + 719468
  let era := z'.fdiv 146097
  let doe := z' - era * 146097
  let yoe := (doe - doe / 1460 + doe / 36524 - doe / 146096) / 365
  let y := yoe + era * 400
  let doy := doe - (365 * yoe + yoe / 4 - yoe / 100)
  let mp := (5 * doy + 2) / 153
  let d := doy - (153 * mp + 2) / 5 + 1
  let m := mp + (if mp < 10 then 3 else -9)
  (if m ≤ 2 then y + 1 else y, m, d)

/-- Milliseconds since the epoch of `y-m-d hh:mi` (UTC model of the naive
local `datetime(...).timestamp() * 1000`). -/
def epochMs (y m d hh mi : Int) : Int :=
  daysFromCivil y m d * 86400000 + hh * 3600000 + mi * 60000

/-- `now.year` for a clock in milliseconds: the year of the civil date of the
clock's day (floor division handles pre-epoch clocks). -/
def yearOfMs (ms : Int) : Int := (civilFromDays (ms.fdiv 86400000)).1

/-! ## String primitives used by `_parse_timestamp`

Python's `in`, `str.replace(old, "")` and `int(...)` on the raw timestamp
text, modelled over `List Char`. -/

/-- `pat` is an initial segment of `s`. -/
def startsWithChars : List Char → List Char → Bool
  | [], _ => true
  | _ :: _, [] => false
  | p :: ps, c :: cs => decide (p = c) && startsWithChars ps cs

/-- Python `pat in s`: `pat` occurs contiguously somewhere in `s`. -/
def hasSubChars (pat : List Char) : List Char → Bool
  | [] => startsWithChars pat []
  | c :: cs => startsWithChars pat (c :: cs) || hasSubChars pat cs

/-- Python `pat in s` on strings. -/
def strContains (s pat : String) : Bool := hasSubChars pat.data s.data

/-- Worker for `removeAllChars`, structurally recursive on a fuel argument so
that concrete evaluations reduce inside the kernel; every step consumes at
least one character, so `s.length` fuel always suffices. -/
def removeAllLoop (pat : List Char) : Nat → List Char → List Char
  | _, [] => []
  | 0, s => s
  | fuel + 1, c :: cs =>
    if startsWithChars pat (c :: cs) && decide (0 < pat.length) then
      removeAllLoop pat fuel (cs.drop (pat.length - 1))
    else
      c :: removeAllLoop pat fuel cs

/-- Python `s.replace(pat, "")`: remove every (left-to-right, non-overlapping)
occurrence of a non-empty `pat`. -/
def removeAllChars (pat s : List Char) : List Char := removeAllLoop pat s.length s

/-- ASCII digit test. -/
def isDigitChar (c : Char) : Bool := decide ('0' ≤ c) && decide (c ≤ '9')

/-- Value of an ASCII digit. -/
def digitVal (c : Char) : Nat := c.toNat - '0'.toNat

/-- Value of a non-empty all-digit string. -/
def digitsVal (cs : List Char) : Option Nat :=
  if decide (cs ≠ []) && cs.all isDigitChar then
    some (cs.foldl (fun acc c => acc * 10 + digitVal c) 0)
  else none

/-- Model of Python `int(s)`: optional surrounding ASCII whitespace, an
optional sign, then one or more ASCII digits; `none` models `ValueError`.
(CPython also accepts underscore group separators and non-ASCII decimal
digits; no input handled in this development uses either.) -/
def pyInt (s : String) : Option Int :=
  let ws : Char → Bool := fun c => decide (c = ' ') || decide (c = '\t') ||
    decide (c = '\n') || decide (c = '\r')
  let cs := (((s.data.dropWhile ws).reverse.dropWhile ws).reverse)
  match cs with
  | '-' :: rest => (digitsVal rest).map fun n => -(n : Int)
  | '+' :: rest => (digitsVal rest).map fun n => (n : Int)
  | _ => (digitsVal cs).map fun n => (n : Int)

/-! ## `strptime` for the six formats of `_parse_timestamp`

CPython's `strptime` compiles each directive to a regular expression fragment
and requires the whole string to match:
`%Y` ↦ four digits, `%m` ↦ `1[0-2]|0[1-9]|[1-9]`, `%d` ↦
`3[01]|[12]\d|0[1-9]|[1-9]`, `%H` ↦ `2[0-3]|[0-1]\d|\d`, `%M` ↦ `[0-5]\d|\d`.
The matchers below return every alternative in the regex's order, and the
parsers thread them through `List.findSome?`, which is exactly the regex
engine's ordered backtracking.  A successful match then has to survive
`datetime(...)` construction, which checks the day against the month. -/

/-- Two-digit alternative `[lo1-hi1][lo2-hi2]` of a field regex. -/
def alt2 (lo1 hi1 lo2 hi2 : Char) : List Char → List (Int × List Char)
  | c1 :: c2 :: rest =>
    if decide (lo1 ≤ c1) && decide (c1 ≤ hi1) && decide (lo2 ≤ c2) && decide (c2 ≤ hi2) then
      [((digitVal c1 * 10 + digitVal c2 : Nat), rest)]
    else []
  | _ => []

/-- One-digit alternative `[lo-hi]` of a field regex. -/
def alt1 (lo hi : Char) : List Char → List (Int × List Char)
  | c :: rest => if decide (lo ≤ c) && decide (c ≤ hi) then [((digitVal c : Nat), rest)] else []
  | [] => []

/-- `%Y`: exactly four digits. -/
def matchY : List Char → List (Int × List Char)
  | a :: b :: c :: d :: rest =>
    if isDigitChar a && isDigitChar b && isDigitChar c && isDigitChar d then
      [((digitVal a * 1000 + digitVal b * 100 + digitVal c * 10 + digitVal d : Nat), rest)]
    else []
  | _ => []

/-- `%m`: `1[0-2]|0[1-9]|[1-9]`. -/
def matchM (cs : List Char) : List (Int × List Char) :=
  alt2 '1' '1' '0' '2' cs ++ alt2 '0' '0' '1' '9' cs ++ alt1 '1' '9' cs

/-- `%d`: `3[01]|[12]\d|0[1-9]|[1-9]`. -/
def matchD (cs : List Char) : List (Int × List Char) :=
  alt2 '3' '3' '0' '1' cs ++ alt2 '1' '2' '0' '9' cs ++ alt2 '0' '0' '1' '9' cs ++
    alt1 '1' '9' cs

/-- `%H`: `2[0-3]|[0-1]\d|\d`. -/
def matchH (cs : List Char) : List (Int × List Char) :=
  alt2 '2' '2' '0' '3' cs ++ alt2 '0' '1' '0' '9' cs ++ alt1 '0' '9' cs

/-- `%M`: `[0-5]\d|\d`. -/
def matchMin (cs : List Char) : List (Int × List Char) :=
  alt2 '0' '5' '0' '9' cs ++ alt1 '0' '9' cs

/-- Consume one expected literal character. -/
def expectChar (c : Char) : List Char → Option (List Char)
  | x :: rest => if x = c then some rest else none
  | [] => none

/-- Match `%Y<sep>%m<sep>%d`, optionally followed by `" %H:%M"`, against the
whole string, with the regex's backtracking order. -/
def parseYMD (sep : Char) (withTime : Bool) (cs : List Char) :
    Option (Int × Int × Int × Int × Int) :=
  (matchY cs).findSome? fun yc =>
    match expectChar sep yc.2 with
    | none => none
    | some cs2 =>
      (matchM cs2).findSome? fun mc =>
        match expectChar sep mc.2 with
        | none => none
        | some cs4 =>
          (matchD cs4).findSome? fun dc =>
            if withTime then
              match expectChar ' ' dc.2 with
              | none => none
              | some cs6 =>
                (matchH cs6).findSome? fun hc =>
                  match expectChar ':' hc.2 with
                  | none => none
                  | some cs8 =>
                    (matchMin cs8).findSome? fun nc =>
                      if nc.2 = [] then some (yc.1, mc.1, dc.1, hc.1, nc.1) else none
            else if dc.2 = [] then some (yc.1, mc.1, dc.1, 0, 0) else none

/-- Match `%m<sep>%d` against the whole string. -/
def parseMD (sep : Char) (cs : List Char) : Option (Int × Int) :=
  (matchM cs).findSome? fun mc =>
    match expectChar sep mc.2 with
    | none => none
    | some cs2 =>
      (matchD cs2).findSome? fun dc =>
        if dc.2 = [] then some (mc.1, dc.1) else none

/-- One `strptime` attempt for a `%Y…` format: parse, then survive
`datetime(y, m, d, ...)` construction (year ≥ 1 — four digits bound it above —
and day within the month), then `timestamp() * 1000`. -/
def attemptYMD (sep : Char) (withTime : Bool) (cs : List Char) : Option Int :=
  match parseYMD sep withTime cs with
  | none => none
  | some (y, m, d, hh, mi) =>
    if 1 ≤ y ∧ d ≤ daysInMonth y m then some (epochMs y m d hh mi) else none

/-- One `strptime` attempt for a `%m<sep>%d` format: `strptime` constructs the
date in its default year 1900 (so Feb 29 is rejected there), and the code then
substitutes the current year with `parsed.replace(year=now.year)`. -/
def attemptMD (sep : Char) (nowYear : Int) (cs : List Char) : Option Int :=
  match parseMD sep cs with
  | none => none
  | some (m, d) =>
    if d ≤ daysInMonth 1900 m then
      if d ≤ daysInMonth nowYear m then some (epochMs nowYear m d 0 0) else none
    else none

/-- The `date_formats` loop of `_parse_timestamp` (lines 789-806), in source
order: `%Y-%m-%d`, `%Y/%m/%d`, `%Y-%m-%d %H:%M`, `%Y/%m/%d %H:%M`, `%m-%d`,
`%m/%d`; the first format that parses and validates wins. -/
def tryDateFormats (nowYear : Int) (cs : List Char) : Option Int :=
  (attemptYMD '-' false cs).orElse fun _ =>
  (attemptYMD '/' false cs).orElse fun _ =>
  (attemptYMD '-' true cs).orElse fun _ =>
  (attemptYMD '/' true cs).orElse fun _ =>
  (attemptMD '-' nowYear cs).orElse fun _ =>
  attemptMD '/' nowYear cs

/-- Shallow embedding of `XiaohongshuBrowserMonitor._parse_timestamp`
(lines 755-808).  `now` is the current clock in integer milliseconds since the
epoch (the code's `datetime.now()`, local timezone modelled as UTC); the
argument is `Option String` because the function is documented to accept
`None` (`if not timestamp_str: return 0` handles both `None` and `""`).
Each relative branch fires on substring containment, strips the marker with
`str.replace`, and converts with `int(...)`, falling back to 0 on
`ValueError`; otherwise the absolute formats are tried in order, and anything
left over yields 0. -/
def Monitor.parse_timestamp (now : Int) (timestamp_str : Option String) : Int :=
  match timestamp_str with
  | none => 0
  | some ts =>
    if ts = "" then 0
    else if strContains ts "刚刚" then now
    else if strContains ts "分钟前" then
      match pyInt (String.mk (removeAllChars "分钟前".data ts.data)) with
      | some n => now - n * 60000
      | none => 0
    else if strContains ts "小时前" then
      match pyInt (String.mk (removeAllChars "小时前".data ts.data)) with
      | some n => now - n * 3600000
      | none => 0
    else if strContains ts "天前" then
      match pyInt (String.mk (removeAllChars "天前".data ts.data)) with
      | some n => now - n * 86400000
      | none => 0
    else if strContains ts "昨天" then now - 86400000
    else if strContains ts "前天" then now - 2 * 86400000
    else
      match tryDateFormats (yearOfMs now) ts.data with
      | some ms => ms
      | none => 0

/-! ## `XiaohongshuBrowserMonitor._filter_posts_by_time` (lines 733-753) -/

/-- The fields of a post dict the filter looks at: `post.get("timestamp_unix", 0)`
and the raw `post.get("timestamp")` text (plus a payload field so that distinct
posts stay distinct). -/
structure Post where
  id : String := ""
  timestamp_unix : Int := 0
  timestamp : String := ""
deriving DecidableEq, Repr

/-- The canonical timestamp the filter works with: the stored
`timestamp_unix`, except that a 0 with a non-empty raw text is re-parsed by
`_parse_timestamp` at the current clock. -/
def Monitor.canonicalTs (now : Int) (post : Post) : Int :=
  if post.timestamp_unix = 0 ∧ post.timestamp ≠ "" then
    Monitor.parse_timestamp now (some post.timestamp)
  else post.timestamp_unix

/-- The keep test of the loop: in `[start, end]`, or canonical timestamp 0
(the `elif post_timestamp == 0` leniency branch). -/
def Monitor.keepPost (now startMs endMs : Int) (post : Post) : Bool :=
  let t := Monitor.canonicalTs now post
  (decide (startMs ≤ t) && decide (t ≤ endMs)) || decide (t = 0)

/-- Shallow embedding of `_filter_posts_by_time`: the append loop is a filter
in input order.  `startMs`/`endMs` are the millisecond bounds computed from
`self.time_range`. -/
def Monitor.filter_posts_by_time (now startMs endMs : Int) (posts : List Post) : List Post :=
  posts.filter (Monitor.keepPost now startMs endMs)

/-! ## The specification's description of `pickNext` (claim C7)

`pickNextSpec` is written from the specification's words, to be compared with
the source embedding `AccountManager.get_next_account`: exclude `BANNED` and
`LIMITED`; partition the rest into available (last use older than the
cooldown, or never used) and cooling (within cooldown); if available is
non-empty return the head of the available list sorted by
`(status != ACTIVE, total_uses, last_used_at ascending)`; else if cooling is
non-empty return the cooling account with the earliest cooldown expiry; else
none. -/
def pickNextSpec (accounts : List AccountConfig) (now cooldownSeconds : Nat) :
    Option AccountConfig :=
  let remaining := accounts.filter fun acc =>
    !decide (acc.status = BANNED) && !decide (acc.status = LIMITED)
  let available := remaining.filter fun acc =>
    match acc.last_used_at with
    | none => true
    | some t => decide (t + cooldownSeconds ≤ now)
  let cooling := remaining.filter fun acc =>
    match acc.last_used_at with
    | none => false
    | some t => decide (now < t + cooldownSeconds)
  if available ≠ [] then
    (available.mergeSort AccountManager.availLe).head?
  else if cooling ≠ [] then
    (cooling.mergeSort fun a b =>
      decide (AccountManager.coolingEnd cooldownSeconds a ≤
        AccountManager.coolingEnd cooldownSeconds b)).head?
  else none

/-! ## Helper lemmas about sorted selection -/

/-- An element delivered by `head?` after a `mergeSort` is an element of the
original list. -/
theorem head?_mergeSort_mem {α : Type} {le : α → α → Bool} {l : List α} {a : α}
    (h : (l.mergeSort le).head? = some a) : a ∈ l := by
  cases hl : l.mergeSort le with
  | nil => rw [hl] at h; exact absurd h (by simp)
  | cons x xs =>
    rw [hl] at h
    simp only [List.head?_cons, Option.some.injEq] at h
    subst h
    exact List.mem_mergeSort.mp (hl ▸ List.mem_cons_self x xs)

/-- For a transitive total comparison, the element delivered by `head?` after
a `mergeSort` compares below every element of the list. -/
theorem head?_mergeSort_min {α : Type} {le : α → α → Bool}
    (htrans : ∀ a b c, le a b → le b c → le a c)
    (htotal : ∀ a b, le a b || le b a)
    {l : List α} {a : α} (h : (l.mergeSort le).head? = some a) :
    ∀ b, b ∈ l → le a b = true := by
  intro b hb
  have hb' : b ∈ l.mergeSort le := List.mem_mergeSort.mpr hb
  have hs := List.sorted_mergeSort htrans htotal l
  cases hl : l.mergeSort le with
  | nil => rw [hl] at h; exact absurd h (by simp)
  | cons x xs =>
    rw [hl] at h hb' hs
    simp only [List.head?_cons, Option.some.injEq] at h
    subst h
    rcases List.mem_cons.mp hb' with rfl | hmem
    · have := htotal b b
      simpa using this
    · exact (List.pairwise_cons.mp hs).1 b hmem

/-- The score comparison of `get_account_for_search` is transitive. -/
theorem pairScoreLe_trans : ∀ (x y z : AccountConfig × ℚ),
    decide (x.2 ≤ y.2) → decide (y.2 ≤ z.2) → decide (x.2 ≤ z.2) := by
  intro x y z h1 h2
  simp only [decide_eq_true_eq] at h1 h2 ⊢
  exact le_trans h1 h2

/-- The score comparison of `get_account_for_search` is total. -/
theorem pairScoreLe_total : ∀ (x y : AccountConfig × ℚ),
    decide (x.2 ≤ y.2) || decide (y.2 ≤ x.2) := by
  intro x y
  simp only [Bool.or_eq_true, decide_eq_true_eq]
  exact le_total _ _

/-- An account delivered by `get_next_account` comes from the input list and
passed the banned/limited skip test. -/
theorem get_next_account_mem {accounts : List AccountConfig} {now : Nat} {rc : Bool}
    {cds : Nat} {a : AccountConfig}
    (h : AccountManager.get_next_account accounts now rc cds = some a) :
    a ∈ accounts ∧ AccountManager.skippedNext a = false := by
  simp only [AccountManager.get_next_account] at h
  split at h
  · exact absurd h (by simp)
  · split at h
    · have hm := head?_mergeSort_mem h
      have h1 := List.mem_filter.mp hm
      have h2 := List.mem_filter.mp h1.1
      refine ⟨h2.1, ?_⟩
      have := h2.2
      simpa using this
    · split at h
      · rw [Option.map_eq_some'] at h
        obtain ⟨pr, hpr, rfl⟩ := h
        have hm := head?_mergeSort_mem hpr
        obtain ⟨acc, hacc, rfl⟩ := List.mem_map.mp hm
        have h1 := List.mem_filter.mp hacc
        have h2 := List.mem_filter.mp h1.1
        refine ⟨h2.1, ?_⟩
        have := h2.2
        simpa using this
      · exact absurd h (by simp)

/-- An account delivered by `get_account_for_search` is one of its candidates. -/
theorem get_account_for_search_mem {accounts : List AccountConfig} {now : Nat}
    {a : AccountConfig}
    (h : AccountManager.get_account_for_search accounts now = some a) :
    a ∈ AccountManager.searchCandidates accounts := by
  simp only [AccountManager.get_account_for_search] at h
  split at h
  · exact absurd h (by simp)
  · split at h
    · exact absurd h (by simp)
    · rw [Option.map_eq_some'] at h
      obtain ⟨pr, hpr, rfl⟩ := h
      have hm := head?_mergeSort_mem hpr
      obtain ⟨acc, hacc, rfl⟩ := List.mem_map.mp hm
      exact hacc

/-! ## Concrete accounts used in counterexamples and witnesses -/

/-- A `LIMITED` account with no failures: eligible for `get_account_for_search`. -/
def limitedAccount : AccountConfig :=
  { account_id := "acc_001", username := "user-lim", status := LIMITED }

/-- A `SUSPICIOUS` account with 3 consecutive failures, never used. -/
def failedAccount : AccountConfig :=
  { account_id := "acc_002", username := "user-fail", status := SUSPICIOUS,
    consecutive_failures := 3 }

/-- A healthy `ACTIVE` account. -/
def activeAccount : AccountConfig :=
  { account_id := "acc_003", username := "user-act", status := ACTIVE }

/-! ## Claim C1 -/

/-- C1, counterexample: the claim says BANNED and LIMITED accounts are never
returned by either strategy; `get_account_for_search` only excludes BANNED,
and returns a LIMITED account when it is the best candidate. -/
theorem C1_status_exclusion_counterexample :
    limitedAccount.status = LIMITED ∧
      AccountManager.get_account_for_search [limitedAccount] 5 = some limitedAccount := by
  refine ⟨rfl, ?_⟩
  simp [AccountManager.get_account_for_search, AccountManager.searchCandidates,
    limitedAccount, LIMITED, BANNED]

/-- C1, amended: `get_next_account` never returns a BANNED or LIMITED
account; `get_account_for_search` never returns a BANNED account (but can
return a LIMITED one). -/
theorem C1_status_exclusion_amended :
    (∀ (accounts : List AccountConfig) (now : Nat) (rc : Bool) (cds : Nat)
        (a : AccountConfig),
      AccountManager.get_next_account accounts now rc cds = some a →
        a.status ≠ BANNED ∧ a.status ≠ LIMITED) ∧
    (∀ (accounts : List AccountConfig) (now : Nat) (a : AccountConfig),
      AccountManager.get_account_for_search accounts now = some a →
        a.status ≠ BANNED) := by
  constructor
  · intro accounts now rc cds a h
    have hsk := (get_next_account_mem h).2
    simp only [AccountManager.skippedNext, Bool.or_eq_false_iff,
      decide_eq_false_iff_not] at hsk
    exact hsk
  · intro accounts now a h
    have hc := (List.mem_filter.mp (get_account_for_search_mem h)).2
    simp only [Bool.and_eq_true, Bool.not_eq_true', decide_eq_false_iff_not] at hc
    exact hc.1

/-! ## Claim C2 -/

/-- C2, counterexample: the claim says an account with 3 or more consecutive
failures is returned by neither strategy; `get_next_account` never looks at
`consecutive_failures` and returns such an account. -/
theorem C2_failure_exclusion_counterexample :
    failedAccount.consecutive_failures = 3 ∧
      AccountManager.get_next_account [failedAccount] 0 true 3600 = some failedAccount := by
  refine ⟨rfl, ?_⟩
  simp [AccountManager.get_next_account, AccountManager.skippedNext,
    AccountManager.inCooldown, failedAccount, SUSPICIOUS, BANNED, LIMITED]

/-- C2, amended: only `get_account_for_search` removes accounts with 3 or
more consecutive failures from candidacy; any account it returns has fewer
than 3. -/
theorem C2_failure_exclusion_amended :
    ∀ (accounts : List AccountConfig) (now : Nat) (a : AccountConfig),
      AccountManager.get_account_for_search accounts now = some a →
        a.consecutive_failures < 3 := by
  intro accounts now a h
  have hc := (List.mem_filter.mp (get_account_for_search_mem h)).2
  simp only [Bool.and_eq_true, Bool.not_eq_true', decide_eq_false_iff_not] at hc
  omega

/-- C2, witness: the amended theorem applied to a concrete healthy account. -/
theorem C2_failure_exclusion_witness : activeAccount.consecutive_failures < 3 :=
  C2_failure_exclusion_amended [activeAccount] 0 activeAccount (by
    simp [AccountManager.get_account_for_search, AccountManager.searchCandidates,
      activeAccount, ACTIVE, BANNED])

/-! ## Claim C3 -/

/-- The key the stored ciphertext was made under: the correct master secret. -/
def c3GoodKey : String × String := derive_key "salt0" "correct-secret"

/-- One stored account record, encrypted under the correct master secret. -/
def c3Stored : StoredAccount :=
  { account_id := "acc_001", password_encrypted := fernetEncrypt c3GoodKey "xhs-password" }

/-- C3: the unlock path of `setup_master_password` claims (in its own comment)
to decrypt an account to verify the master password, but `_load_accounts`
never decrypts; with one encrypted record stored, unlocking with a wrong
master secret reports success even though the installed cipher cannot decrypt
the stored ciphertext. -/
theorem C3_unlock_without_decryption :
    (AccountManager.setup_master_password_verify (some [c3Stored]) "salt0"
        "wrong-secret").1 = "wrong-secret" ∧
      EncryptionManager.decrypt
          (AccountManager.setup_master_password_verify (some [c3Stored]) "salt0"
            "wrong-secret").2
          c3Stored.password_encrypted = Except.error "decryption failed" := by
  exact ⟨rfl, rfl⟩

/-! ## Claim C4 -/

/-- C4, counterexample: a run that errors out having collected nothing ends
in `ERROR` without calling persistence at all — the claim's "results are
flushed in every terminal state, in particular when zero posts and zero
comments were collected" fails on the error path. -/
theorem C4_terminal_flush_counterexample :
    (Monitor.runTermination ([] : List Nat) ([] : List Nat)
        BodyOutcome.exception).state = TerminalState.error ∧
      (Monitor.runTermination ([] : List Nat) ([] : List Nat)
        BodyOutcome.exception).saved = none := by
  exact ⟨rfl, rfl⟩

/-- C4, amended: a run always terminates in exactly one of `COMPLETED`,
`STOPPED` or `ERROR`; on normal completion and on cancellation the
accumulated results are always flushed, an empty result set included; on the
error path the partial results are flushed exactly when at least one post or
comment was accumulated. -/
theorem C4_terminal_flush_amended :
    ∀ {α β : Type} (posts : List α) (comments : List β) (outcome : BodyOutcome),
      ((Monitor.runTermination posts comments outcome).state = TerminalState.completed ∨
        (Monitor.runTermination posts comments outcome).state = TerminalState.stopped ∨
        (Monitor.runTermination posts comments outcome).state = TerminalState.error) ∧
      ((Monitor.runTermination posts comments outcome).state = TerminalState.completed ↔
        outcome = BodyOutcome.normal) ∧
      ((Monitor.runTermination posts comments outcome).state = TerminalState.stopped ↔
        outcome = BodyOutcome.interrupted) ∧
      (outcome ≠ BodyOutcome.exception →
        (Monitor.runTermination posts comments outcome).saved = some (posts, comments)) ∧
      (outcome = BodyOutcome.exception →
        ((Monitor.runTermination posts comments outcome).saved = some (posts, comments) ↔
          (posts ≠ [] ∨ comments ≠ []))) := by
  intro α β posts comments outcome
  cases outcome with
  | normal => simp [Monitor.runTermination]
  | interrupted => simp [Monitor.runTermination]
  | exception =>
    refine ⟨Or.inr (Or.inr rfl), by simp [Monitor.runTermination], by
      simp [Monitor.runTermination], by simp, fun _ => ?_⟩
    rcases posts with _ | ⟨p, ps⟩ <;> rcases comments with _ | ⟨c, cs⟩ <;>
      simp [Monitor.runTermination]

/-! ## Claim C5 -/

/-- C5: round-trip encryption under the same unlocked vault, and failure of
decryption under a key derived (with the same salt) from a different master
secret.  The KDF and Fernet are modelled symbolically (see the section
comment): the model equates keys exactly when salt and master secret agree. -/
theorem C5_encrypt_roundtrip :
    (∀ (salt password s : String) (ct : FernetToken),
        EncryptionManager.encrypt (some (derive_key salt password)) s = Except.ok ct →
        EncryptionManager.decrypt (some (derive_key salt password)) ct = Except.ok s) ∧
    (∀ (salt p1 p2 s : String) (ct : FernetToken), p1 ≠ p2 →
        EncryptionManager.encrypt (some (derive_key salt p1)) s = Except.ok ct →
        EncryptionManager.decrypt (some (derive_key salt p2)) ct =
          Except.error "decryption failed") := by
  constructor
  · intro salt password s ct h
    simp only [EncryptionManager.encrypt, Except.ok.injEq] at h
    subst h
    simp [EncryptionManager.decrypt, fernetDecrypt, fernetEncrypt]
  · intro salt p1 p2 s ct hne h
    simp only [EncryptionManager.encrypt, Except.ok.injEq] at h
    subst h
    simp [EncryptionManager.decrypt, fernetDecrypt, fernetEncrypt, derive_key,
      Prod.ext_iff, fun h : p1 = p2 => hne h]

/-! ## Claim C6 -/

/-- C6: `get_account_for_search` considers exactly the non-BANNED accounts
with fewer than 3 consecutive failures; it returns `none` exactly when that
candidate set is empty, otherwise a candidate of minimal score; and the score
is monotone in `consecutive_failures` — an otherwise-identical account with
strictly more consecutive failures never scores lower. -/
theorem C6_scored_selection :
    ∀ (accounts : List AccountConfig) (now : Nat),
      (AccountManager.get_account_for_search accounts now = none ↔
        AccountManager.searchCandidates accounts = []) ∧
      (∀ a, AccountManager.get_account_for_search accounts now = some a →
        a ∈ AccountManager.searchCandidates accounts ∧
        ∀ b, b ∈ AccountManager.searchCandidates accounts →
          AccountManager.searchScore now a ≤ AccountManager.searchScore now b) ∧
      (∀ (acc : AccountConfig) (k : Nat), acc.consecutive_failures < k →
        AccountManager.searchScore now acc ≤
          AccountManager.searchScore now { acc with consecutive_failures := k }) := by
  intro accounts now
  refine ⟨?_, ?_, ?_⟩
  · constructor
    · intro h
      by_contra hne
      rcases hc : AccountManager.searchCandidates accounts with _ | ⟨c, crest⟩
      · exact hne hc
      · have haccne : accounts ≠ [] := by
          intro h0
          rw [h0] at hc
          simp [AccountManager.searchCandidates] at hc
        simp only [AccountManager.get_account_for_search, if_neg haccne] at h
        rw [hc] at h
        simp only [List.map_cons] at h
        split at h
        · next hcond => simp at hcond
        · rcases hms : ((c, AccountManager.searchScore now c) ::
              crest.map fun acc => (acc, AccountManager.searchScore now acc)).mergeSort
              (fun x y => decide (x.2 ≤ y.2)) with _ | ⟨x, xs⟩
          · have := congrArg List.length hms
            simp at this
          · rw [hms] at h
            simp at h
    · intro h
      have : AccountManager.searchCandidates accounts = [] → accounts = [] ∨ True := by
        intro _
        exact Or.inr trivial
      simp only [AccountManager.get_account_for_search]
      split
      · rfl
      · rw [h]
        simp
  · intro a h
    refine ⟨get_account_for_search_mem h, ?_⟩
    intro b hb
    simp only [AccountManager.get_account_for_search] at h
    split at h
    · exact absurd h (by simp)
    · split at h
      · exact absurd h (by simp)
      · rw [Option.map_eq_some'] at h
        obtain ⟨pr, hpr, rfl⟩ := h
        have hmin := head?_mergeSort_min pairScoreLe_trans pairScoreLe_total hpr
        have hm := head?_mergeSort_mem hpr
        obtain ⟨acc, hacc, rfl⟩ := List.mem_map.mp hm
        have hble := hmin (b, AccountManager.searchScore now b)
          (List.mem_map.mpr ⟨b, hb, rfl⟩)
        simpa using hble
  · intro acc k hk
    have hk' : (acc.consecutive_failures : ℚ) ≤ (k : ℚ) := by exact_mod_cast hk.le
    show (acc.total_searches : ℚ) * 10 + (acc.consecutive_failures : ℚ) * 50 +
        AccountManager.cooldownRemaining now acc +
        (if acc.status = ACTIVE then 0 else 100) ≤
      (acc.total_searches : ℚ) * 10 + (k : ℚ) * 50 +
        AccountManager.cooldownRemaining now acc +
        (if acc.status = ACTIVE then 0 else 100)
    linarith

/-! ## Claim C7 -/

/-- C7: with `respectCooldown` enabled, `get_next_account` behaves exactly as
the specification describes (`pickNextSpec`): exclude BANNED/LIMITED,
partition into available and cooling, return the head of the available list
under the `(status != ACTIVE, total_uses, last_used_at)` order, else the
cooling account with the earliest cooldown expiry, else none. -/
theorem C7_pickNext_matches_spec :
    ∀ (accounts : List AccountConfig) (now cds : Nat),
      AccountManager.get_next_account accounts now true cds =
        pickNextSpec accounts now cds := by
  intro accounts now cds
  simp only [AccountManager.get_next_account, pickNextSpec]
  have hkept : (accounts.filter fun acc => !AccountManager.skippedNext acc) =
      accounts.filter fun acc =>
        !decide (acc.status = BANNED) && !decide (acc.status = LIMITED) := by
    apply List.filter_congr
    intro a _
    simp [AccountManager.skippedNext, Bool.not_or]
  have havail : ∀ l : List AccountConfig,
      (l.filter fun acc => !(true && AccountManager.inCooldown now cds acc)) =
        l.filter fun acc =>
          match acc.last_used_at with
          | none => true
          | some t => decide (t + cds ≤ now) := by
    intro l
    apply List.filter_congr
    intro a _
    cases hl : a.last_used_at with
    | none => simp [AccountManager.inCooldown, hl]
    | some t =>
      by_cases hlt : now < t + cds
      · have h2 : ¬(t + cds ≤ now) := by omega
        simp [AccountManager.inCooldown, hl, hlt, h2]
      · have h2 : t + cds ≤ now := by omega
        simp [AccountManager.inCooldown, hl, hlt, h2]
  have hcool : ∀ l : List AccountConfig,
      (l.filter fun acc => true && AccountManager.inCooldown now cds acc) =
        l.filter fun acc =>
          match acc.last_used_at with
          | none => false
          | some t => decide (now < t + cds) := by
    intro l
    apply List.filter_congr
    intro a _
    cases hl : a.last_used_at with
    | none => simp [AccountManager.inCooldown, hl]
    | some t => simp [AccountManager.inCooldown, hl]
  have hmap : ∀ l : List AccountConfig,
      (((l.map fun acc => (acc, AccountManager.coolingEnd cds acc)).mergeSort
          fun x y => decide (x.2 ≤ y.2)).head?).map Prod.fst =
        (l.mergeSort fun a b =>
          decide (AccountManager.coolingEnd cds a ≤
            AccountManager.coolingEnd cds b)).head? := by
    intro l
    rw [← @List.map_mergeSort AccountConfig (AccountConfig × Nat)
      (fun a b => decide (AccountManager.coolingEnd cds a ≤ AccountManager.coolingEnd cds b))
      (fun x y => decide (x.2 ≤ y.2))
      (fun acc => (acc, AccountManager.coolingEnd cds acc)) l (fun a _ b _ => rfl)]
    rw [List.head?_map, Option.map_map]
    cases (l.mergeSort fun a b =>
      decide (AccountManager.coolingEnd cds a ≤ AccountManager.coolingEnd cds b)).head? <;>
      rfl
  rw [hkept, havail, hcool, hmap]
  by_cases hacc : accounts = []
  · subst hacc
    simp
  · rw [if_neg hacc]
    simp only [ne_eq, List.map_eq_nil_iff]

/-! ## Claim C8 -/

/-- C8: `_parse_timestamp` is total (every fallible step is defaulted to 0 in
the embedding, mirroring the `try/except` fallbacks): `None`, the empty
string and unparseable text yield 0; relative phrases are resolved against
the current clock, exactly (the claim's one-second tolerance absorbs the
float rounding of the code's `timestamp()`, which the integer model makes
exact); `"2024-01-15"` yields that date's local (modelled UTC) midnight in
epoch milliseconds; and the bare `MM-DD` format is resolved to the clock's
current year. -/
theorem C8_parse_timestamp :
    ∀ now : Int,
      Monitor.parse_timestamp now none = 0 ∧
      Monitor.parse_timestamp now (some "") = 0 ∧
      Monitor.parse_timestamp now (some "3天前") = now - 3 * 86400000 ∧
      Monitor.parse_timestamp now (some "3 天前") = now - 3 * 86400000 ∧
      Monitor.parse_timestamp now (some "刚刚") = now ∧
      Monitor.parse_timestamp now (some "5分钟前") = now - 5 * 60000 ∧
      Monitor.parse_timestamp now (some "2小时前") = now - 2 * 3600000 ∧
      Monitor.parse_timestamp now (some "昨天") = now - 86400000 ∧
      Monitor.parse_timestamp now (some "前天") = now - 2 * 86400000 ∧
      Monitor.parse_timestamp now (some "2024-01-15") = 1705276800000 ∧
      Monitor.parse_timestamp now (some "2024/03/05 07:30") = epochMs 2024 3 5 7 30 ∧
      Monitor.parse_timestamp now (some "06-01") = epochMs (yearOfMs now) 6 1 0 0 ∧
      Monitor.parse_timestamp now (some "not a date") = 0 ∧
      Monitor.parse_timestamp now (some "2023-02-29") = 0 := by
  intro now
  exact ⟨rfl, rfl, rfl, rfl, rfl, rfl, rfl, rfl, rfl, rfl, rfl, rfl, rfl, rfl⟩

/-! ## Claim C9 -/

/-- C9: the time-window filter returns exactly the subsequence, in input
order, of the items whose canonical timestamp lies in `[start, end]` or is 0
(unparseable timestamps are retained); filtering an already-filtered list by
the same window (at the same clock) returns the identical list. -/
theorem C9_time_window_filter :
    ∀ (now startMs endMs : Int) (posts : List Post),
      (Monitor.filter_posts_by_time now startMs endMs posts).Sublist posts ∧
      (∀ p, p ∈ Monitor.filter_posts_by_time now startMs endMs posts ↔
        p ∈ posts ∧ ((startMs ≤ Monitor.canonicalTs now p ∧
            Monitor.canonicalTs now p ≤ endMs) ∨ Monitor.canonicalTs now p = 0)) ∧
      Monitor.filter_posts_by_time now startMs endMs
          (Monitor.filter_posts_by_time now startMs endMs posts) =
        Monitor.filter_posts_by_time now startMs endMs posts := by
  intro now s e posts
  refine ⟨List.filter_sublist _, ?_, ?_⟩
  · intro p
    simp only [Monitor.filter_posts_by_time, List.mem_filter]
    simp [Monitor.keepPost]
  · simp only [Monitor.filter_posts_by_time]
    rw [List.filter_filter]
    apply List.filter_congr
    intro a _
    exact Bool.and_self _

/-! ## Claim C10 -/

/-- The C10 scenario's starting state: empty registry, master password set. -/
def c10Start : RegistryState := { accounts := [], master_password_set := true }

/-- State after adding the first account. -/
def c10AfterFirst : RegistryState := AccountManager.addState c10Start "user-a" "pw-a"

/-- State after adding the second account. -/
def c10AfterSecond : RegistryState := AccountManager.addState c10AfterFirst "user-b" "pw-b"

/-- State after removing the first account again. -/
def c10AfterRemove : RegistryState :=
  (AccountManager.remove_account c10AfterSecond "acc_001").1

/-- C10: account ids are derived from the current account count, so after
add, add, remove-first, the next `add_account` re-issues `"acc_002"`, which
already names a stored account; the dict assignment replaces that record and
the total number of stored accounts does not change. -/
theorem C10_account_id_collision :
    AccountManager.addId c10Start "user-a" "pw-a" = "acc_001" ∧
    AccountManager.addId c10AfterFirst "user-b" "pw-b" = "acc_002" ∧
    (AccountManager.remove_account c10AfterSecond "acc_001").2 = true ∧
    c10AfterRemove.accounts.map Prod.fst = ["acc_002"] ∧
    AccountManager.addId c10AfterRemove "user-c" "pw-c" = "acc_002" ∧
    (AccountManager.addState c10AfterRemove "user-c" "pw-c").accounts.map Prod.fst =
      ["acc_002"] ∧
    (AccountManager.addState c10AfterRemove "user-c" "pw-c").accounts.length =
      c10AfterRemove.accounts.length ∧
    ((AccountManager.addState c10AfterRemove "user-c" "pw-c").accounts.map
      fun kv => kv.2.username) = ["user-c"] := by
  exact ⟨rfl, rfl, rfl, rfl, rfl, rfl, rfl, rfl⟩

end XhsMonitor
